import Mathlib

/-!
Shallow embedding of the probe-rs CLI command dispatcher (`src/cli/src/main.rs`).

External collaborators (probe attach, target memory access, readline, the flash
library) are modelled as explicit parameters: a clock sequence, a fallible
word-read, an input-event list, and `Except`-valued operation results.  The
functions below mirror the control flow of the corresponding Rust functions.
-/

namespace Cli

/-! ### Byte-level encoding (`scroll::Pwrite` with `LE`) -/

/-- Little-endian byte list of a `u32` value (`pwrite_with::<u32>(_, LE)`). -/
def u32LE (v : Nat) : List Nat :=
  [v % 256, v / 2 ^ 8 % 256, v / 2 ^ 16 % 256, v / 2 ^ 24 % 256]

/-- Little-endian byte list of a `u64` value (`pwrite_with::<u64>(_, LE)`). -/
def u64LE (v : Nat) : List Nat :=
  [v % 256, v / 2 ^ 8 % 256, v / 2 ^ 16 % 256, v / 2 ^ 24 % 256,
   v / 2 ^ 32 % 256, v / 2 ^ 40 % 256, v / 2 ^ 48 % 256, v / 2 ^ 56 % 256]

/-- Overwrite `bs.length` bytes of `buf` starting at offset `off`
(the effect of `buf.pwrite_with(value, off, LE)`). -/
def writeBytesAt (buf : List Nat) (off : Nat) (bs : List Nat) : List Nat :=
  buf.take off ++ bs ++ buf.drop (off + bs.length)

/-- The 8-byte record built in `trace_u32_on_target`:
`let mut buf = [0_u8; 8]; buf.pwrite_with(instant, 0, LE); buf.pwrite_with(value, 4, LE)`
where `instant : u64` and `value : u32`. -/
def mkRecord (instant value : Nat) : List Nat :=
  writeBytesAt (writeBytesAt (List.replicate 8 0) 0 (u64LE instant)) 4 (u32LE value)

/-- Decode 4 little-endian bytes back to the `u32` they denote. -/
def decodeU32LE (bs : List Nat) : Nat :=
  match bs with
  | [b0, b1, b2, b3] => b0 + 2 ^ 8 * b1 + 2 ^ 16 * b2 + 2 ^ 24 * b3
  | _ => 0

/-! ### Memory Sampler: `trace_u32_on_target` -/

/-- Transport-level failure of `core.read_word_32` (`MemoryAccessError`). -/
inductive MemErr
  | readFail
deriving DecidableEq, Repr

/-- An event on the output sink (`stdout`): a byte write or a flush. -/
inductive OutEvent
  | write (bytes : List Nat)
  | flush
deriving DecidableEq, Repr

/-- State retained or emitted across iterations of the `trace_u32_on_target` loop:
`xs` and `ys` are the program's in-memory vectors (`let mut xs = vec![]` /
`let mut ys = vec![]`); `stdout` and `sleeps` record the externally observable
sink writes and `sleep` calls of the run. -/
structure TraceState where
  xs : List Nat
  ys : List Nat
  stdout : List OutEvent
  sleeps : List Nat
deriving DecidableEq, Repr

/-- State at loop entry: both vectors empty, nothing emitted. -/
def initTrace : TraceState := ⟨[], [], [], []⟩

/-- `let poll_every_ms = 50`. -/
def pollEveryMs : Nat := 50

/-- One iteration of the `loop` body of `trace_u32_on_target`.
`clock n` is the value of the n-th call of `start.elapsed()` converted to whole
milliseconds (`elapsed.as_secs() * 1000 + subsec_millis`); iteration `k` performs
calls `2*k` (before the read) and `2*k+1` (when scheduling the sleep).
`readWord k` is the result of the k-th `core.read_word_32(loc)`. -/
def traceStep (clock : Nat → Nat) (readWord : Nat → Except MemErr Nat) (k : Nat)
    (s : TraceState) : Except MemErr TraceState :=
  let instant := clock (2 * k)
  match readWord k with
  | .error e => .error e
  | .ok value =>
      .ok { xs := s.xs ++ [instant]
            ys := s.ys ++ [value]
            stdout := s.stdout ++ [.write (mkRecord instant value), .flush]
            sleeps := s.sleeps ++ [pollEveryMs - clock (2 * k + 1) % pollEveryMs] }

/-- The `trace_u32_on_target` loop truncated after `N` iterations (the loop itself
has no exit; a read failure aborts it with the error). -/
def traceRun (clock : Nat → Nat) (readWord : Nat → Except MemErr Nat) :
    Nat → Except MemErr TraceState
  | 0 => .ok initTrace
  | n + 1 =>
    match traceRun clock readWord n with
    | .error e => .error e
    | .ok s => traceStep clock readWord n s

/-- Size of the sampler's in-memory per-run sample buffers (`xs` and `ys`). -/
def retainedSize : Except MemErr TraceState → Nat
  | .ok s => s.xs.length + s.ys.length
  | .error _ => 0

/-- The sleep durations performed by a truncated run. -/
def sleepsOf : Except MemErr TraceState → List Nat
  | .ok s => s.sleeps
  | .error _ => []

/-- The 32-bit timestamps carried by the records written to the sink:
bytes 0-3 of each `write`, decoded little-endian. -/
def emittedTimestamps (s : TraceState) : List Nat :=
  s.stdout.filterMap fun e =>
    match e with
    | .write bs => some (decodeU32LE (bs.take 4))
    | .flush => none

/-- `emittedTimestamps` of a truncated run, empty on a read failure. -/
def timestampsOf : Except MemErr TraceState → List Nat
  | .ok s => emittedTimestamps s
  | .error _ => []

/-! ### `dump_memory` -/

/-- Modelled from the spec: the probe library's `MemoryInterface::read_32`
(declared outside the CLI sources) reads `words` contiguous 32-bit values
starting at address `loc`, consecutive words 4 bytes apart, into the supplied
buffer.  `mem` maps a 32-bit address to the word stored there. -/
def read_32 (mem : Nat → Nat) (loc words : Nat) : List Nat :=
  (List.range words).map fun i => mem ((loc + 4 * i) % 2 ^ 32)

/-- The data rows printed by `dump_memory`: for `word in 0..words`, the line
`Addr 0x{loc + 4 * word}: 0x{data[word]}`, as an (address, value) pair.
Address arithmetic is `u32` (wrapping at `2^32`). -/
def dump_memory (mem : Nat → Nat) (loc words : Nat) : List (Nat × Nat) :=
  let data := read_32 mem loc words
  (List.range words).map fun word => ((loc + 4 * word) % 2 ^ 32, data.getD word 0)

/-! ### Format resolution: `DownloadFileType::into` -/

/-- `probe_rs::flashing::BinOptions`. -/
structure BinOptions where
  base_address : Option Nat
  skip : Nat
deriving DecidableEq, Repr

/-- `probe_rs::flashing::Format`. -/
inductive Format
  | Bin (options : BinOptions)
  | Elf
  | Hex
deriving DecidableEq, Repr

/-- The CLI `--format` token. -/
inductive DownloadFileType
  | Elf
  | Hex
  | Bin
deriving DecidableEq, Repr

/-- `DownloadFileType::into(self, base_address, skip)`: `skip.unwrap_or(0)` for
`bin`; `elf`/`hex` ignore both arguments. -/
def DownloadFileType.into (self : DownloadFileType)
    (base_address : Option Nat) (skip : Option Nat) : Format :=
  match self with
  | .Elf => Format.Elf
  | .Hex => Format.Hex
  | .Bin => Format.Bin { base_address := base_address, skip := skip.getD 0 }

/-! ### `download_program_fast` -/

/-- The externally performed operations of a download, in program order. -/
inductive DlEvent
  | attach
  | openFile
  | loadImage
  | flash
deriving DecidableEq, Repr

/-- Results of the fallible external calls made by `download_program_fast`:
`simple_attach`, `File::open`, the three loader entry points, and
`run_flash_download`. -/
structure DlOps where
  attach : Except String Unit
  openFile : Except String Unit
  load_bin_data : BinOptions → Except String Unit
  load_elf_data : Except String Unit
  load_hex_data : Except String Unit
  run_flash_download : Except String Unit

/-- The `match format { Bin => load_bin_data, Elf => load_elf_data, Hex => load_hex_data }`
step of `download_program_fast`. -/
def loadOf (ops : DlOps) (format : Format) : Except String Unit :=
  match format with
  | .Bin options => ops.load_bin_data options
  | .Elf => ops.load_elf_data
  | .Hex => ops.load_hex_data

/-- `download_program_fast`, returning its result together with the list of
external operations it performed, in order.  A failed call contributes no event;
`flash` is recorded when `run_flash_download` is invoked. -/
def download_program_fast (ops : DlOps) (format : Format) :
    Except String Unit × List DlEvent :=
  match ops.attach with
  | .error e => (.error e, [])
  | .ok _ =>
    match ops.openFile with
    | .error e => (.error ( "Failed to open binary file. " ++ e), [.attach])
    | .ok _ =>
      match loadOf ops format with
      | .error e => (.error e, [.attach, .openFile])
      | .ok _ =>
        match ops.run_flash_download with
        | .error e => (.error e, [.attach, .openFile, .loadImage, .flash])
        | .ok _ => (.ok (), [.attach, .openFile, .loadImage, .flash])

/-! ### Debug shell loop: `debug` -/

/-- `debugger::CliState`, returned by the line handler. -/
inductive CliState
  | Continue
  | Stop
deriving DecidableEq, Repr

/-- `rustyline::error::ReadlineError`, as matched by the loop. -/
inductive ReadlineError
  | Eof
  | Interrupted
  | Other (msg : String)
deriving DecidableEq, Repr

/-- One result of `rl.readline(">> ")`. -/
inductive ReadEvent
  | line (s : String)
  | err (e : ReadlineError)
deriving DecidableEq, Repr

/-- Outcome of the shell loop on a finite event list: `finished r` means the
loop exited and `debug` returns `r`; `running` means the events were exhausted
with the loop still blocked on the next line. -/
inductive LoopOutcome (E : Type)
  | finished (r : Except E Unit)
  | running

/-- The `loop` of `debug`, driven by a list of readline results; `handle_line`
is `cli.handle_line` (the `?` operator propagates its error).  Returns the
outcome together with the lines printed by the loop
(`println!("Error handling input: {:?}", actual_error)`). -/
def debugLoop {E : Type} (handle_line : String → Except E CliState) :
    List ReadEvent → LoopOutcome E × List String
  | [] => (.running, [])
  | .line s :: rest =>
    match handle_line s with
    | .error e => (.finished (.error e), [])
    | .ok .Continue => debugLoop handle_line rest
    | .ok .Stop => (.finished (.ok ()), [])
  | .err e :: _ =>
    match e with
    | .Eof => (.finished (.ok ()), [])
    | .Interrupted => (.finished (.ok ()), [])
    | .Other msg => (.finished (.ok ()), [ "Error handling input: " ++ msg])

/-- The debug-info resolution of `debug`:
`exe.as_ref().and_then(|path| DebugInfo::from_file(path).ok())`. -/
def debug_di {E D : Type} (from_file : String → Except E D) (exe : Option String) :
    Option D :=
  exe.bind fun path => (from_file path).toOption

/-! ### Closed-form run state and concrete instances -/

/-- The state of the sampler after `N` iterations when every read succeeds:
`val k` is the value returned by the k-th read. -/
def traceStateAt (clock val : Nat → Nat) (N : Nat) : TraceState where
  xs := (List.range N).map fun k => clock (2 * k)
  ys := (List.range N).map val
  stdout := ((List.range N).map fun k =>
    [OutEvent.write (mkRecord (clock (2 * k)) (val k)), OutEvent.flush]).flatten
  sleeps := (List.range N).map fun k => pollEveryMs - clock (2 * k + 1) % pollEveryMs

/-- A clock frozen at 0 ms. -/
def cexClock0 : Nat → Nat := fun _ => 0

/-- A clock advancing 7 ms per elapsed-call. -/
def cexClock7 : Nat → Nat := fun n => 7 * n

/-- A monotone clock that crosses the 32-bit boundary: `2^32 - 1 + n` ms. -/
def cexClockBig : Nat → Nat := fun n => 4294967295 + n

/-- A target read that always succeeds with value 0. -/
def cexReadZero : Nat → Except MemErr Nat := fun _ => Except.ok 0

/-- A concrete memory image for exercising `dump_memory`. -/
def wmem : Nat → Nat := fun a => a + 1

/-- A concrete line handler: `quit` stops, anything else continues. -/
def whandle : String → Except Unit CliState :=
  fun x => if x = "quit" then Except.ok CliState.Stop else Except.ok CliState.Continue

/-- A concrete line handler that fails on every line. -/
def werrHandle : String → Except Nat CliState := fun _ => Except.error 42

/-- A concrete debug-info load that fails on every path. -/
def wfromFile : String → Except String Nat := fun _ => Except.error "nope"

/-- Concrete download operations whose ELF loader entry fails. -/
def wops : DlOps where
  attach := Except.ok ()
  openFile := Except.ok ()
  load_bin_data := fun _ => Except.error "bad bin"
  load_elf_data := Except.error "bad elf"
  load_hex_data := Except.ok ()
  run_flash_download := Except.ok ()

/-! ### Helper lemmas -/

/-- The two overlapping `pwrite` calls leave the low 4 bytes of the `u64`
timestamp followed by the 4 bytes of the value. -/
lemma mkRecord_def (i v : Nat) : mkRecord i v = u32LE i ++ u32LE v := rfl

lemma mkRecord_length (i v : Nat) : (mkRecord i v).length = 8 := rfl

/-- The low 4 little-endian bytes only depend on the value modulo `2^32`. -/
lemma u32LE_mod (i : Nat) : u32LE (i % 2 ^ 32) = u32LE i := by
  simp only [u32LE, List.cons.injEq, and_true]
  norm_num
  omega

/-- Decoding the 4-byte little-endian encoding returns the value modulo `2^32`. -/
lemma decodeU32LE_u32LE (x : Nat) : decodeU32LE (u32LE x) = x % 2 ^ 32 := by
  show x % 256 + 2 ^ 8 * (x / 2 ^ 8 % 256) + 2 ^ 16 * (x / 2 ^ 16 % 256)
      + 2 ^ 24 * (x / 2 ^ 24 % 256) = x % 2 ^ 32
  norm_num
  omega

/-- Bytes 0-3 of a record decode to the timestamp truncated to 32 bits. -/
lemma decode_mkRecord (i v : Nat) :
    decodeU32LE ((mkRecord i v).take 4) = i % 2 ^ 32 := by
  have h : (mkRecord i v).take 4 = u32LE i := rfl
  rw [h, decodeU32LE_u32LE]

/-- Closed form of a truncated sampler run when every read succeeds. -/
lemma traceRun_eq (clock val : Nat → Nat) (readWord : Nat → Except MemErr Nat)
    (hread : ∀ k, readWord k = Except.ok (val k)) (N : Nat) :
    traceRun clock readWord N = Except.ok (traceStateAt clock val N) := by
  induction N with
  | zero => simp [traceRun, traceStateAt, initTrace]
  | succ n ih =>
    simp [traceRun, ih, traceStep, hread n, traceStateAt, List.range_succ]

/-- The emitted 32-bit timestamps of the closed-form run state. -/
lemma emitted_traceStateAt (clock val : Nat → Nat) (N : Nat) :
    emittedTimestamps (traceStateAt clock val N) =
      (List.range N).map fun k => clock (2 * k) % 2 ^ 32 := by
  induction N with
  | zero => rfl
  | succ n ih =>
    have hstep : emittedTimestamps (traceStateAt clock val (n + 1)) =
        emittedTimestamps (traceStateAt clock val n)
          ++ [decodeU32LE ((mkRecord (clock (2 * n)) (val n)).take 4)] := by
      simp [emittedTimestamps, traceStateAt, List.range_succ, List.filterMap_append]
    rw [hstep, ih, decode_mkRecord, List.range_succ, List.map_append, List.map_singleton]

/-- Lines whose handler result is `Continue` are consumed without affecting the
outcome of the rest of the input. -/
lemma debugLoop_continue_skip {E : Type} (handle_line : String → Except E CliState)
    (pre : List String) (l : List ReadEvent)
    (hpre : ∀ x ∈ pre, handle_line x = Except.ok CliState.Continue) :
    debugLoop handle_line (pre.map ReadEvent.line ++ l) = debugLoop handle_line l := by
  induction pre with
  | nil => rfl
  | cons x xs ih =>
    have hx := hpre x (by simp)
    have hrest : ∀ y ∈ xs, handle_line y = Except.ok CliState.Continue :=
      fun y hy => hpre y (by simp [hy])
    simp only [List.map_cons, List.cons_append, debugLoop, hx]
    exact ih hrest

/-! ### Claim theorems -/

/-- Claim C1 (code bug evidence): the sampler's retained in-memory buffers `xs`
and `ys` grow with the number of iterations — after 1 iteration they hold 2
entries, after 2 iterations 4 entries — so the retained state is NOT of
constant size independent of N, contradicting the spec's "no in-memory
accumulation beyond the current sample". -/
theorem trace_buffers_grow :
    retainedSize (traceRun cexClock0 cexReadZero 1) = 2 ∧
    retainedSize (traceRun cexClock0 cexReadZero 2) = 4 ∧
    retainedSize (traceRun cexClock0 cexReadZero 2) ≠
      retainedSize (traceRun cexClock0 cexReadZero 1) := by
  refine ⟨rfl, rfl, by decide⟩

/-- Claim C2 (counterexample): with elapsed time 7 ms at the scheduling point,
the loop sleeps `50 - 7 % 50 = 43` ms, not the 7 ms (`elapsed_ms mod 50`) the
claim asserts. -/
theorem trace_sleep_cex :
    sleepsOf (traceRun cexClock7 cexReadZero 1) = [43] ∧
    cexClock7 1 % 50 = 7 ∧ (43 : Nat) ≠ 7 := by decide

/-- Claim C2 (amended): in every iteration the loop sleeps the COMPLEMENT of
the remainder, `50 - elapsed_ms % 50` — the time remaining until the next
50 ms grid point. -/
theorem trace_sleep_complement (clock val : Nat → Nat)
    (readWord : Nat → Except MemErr Nat)
    (hread : ∀ k, readWord k = Except.ok (val k)) (N : Nat) :
    sleepsOf (traceRun clock readWord N) =
      (List.range N).map fun k => pollEveryMs - clock (2 * k + 1) % pollEveryMs := by
  rw [traceRun_eq clock val readWord hread N]
  rfl

/-- Witness for the amended C2 at a concrete clock and run length. -/
theorem trace_sleep_complement_witness :
    sleepsOf (traceRun cexClock7 cexReadZero 2) =
      (List.range 2).map fun k => pollEveryMs - cexClock7 (2 * k + 1) % pollEveryMs :=
  trace_sleep_complement cexClock7 (fun _ => 0) cexReadZero (fun _ => rfl) 2

/-- Claim C3: every record written to the sink is exactly 8 bytes — bytes 0-3
the elapsed milliseconds truncated to 32 bits in little-endian order, bytes 4-7
the read value in little-endian order — and every write is immediately followed
by a flush. -/
theorem trace_record_layout (clock val : Nat → Nat)
    (readWord : Nat → Except MemErr Nat)
    (hread : ∀ k, readWord k = Except.ok (val k)) (N : Nat) :
    ∃ s, traceRun clock readWord N = Except.ok s ∧
      s.stdout = ((List.range N).map fun k =>
        [OutEvent.write (u32LE (clock (2 * k) % 2 ^ 32) ++ u32LE (val k % 2 ^ 32)),
         OutEvent.flush]).flatten ∧
      ∀ bs, OutEvent.write bs ∈ s.stdout → bs.length = 8 := by
  refine ⟨traceStateAt clock val N, traceRun_eq clock val readWord hread N, ?_, ?_⟩
  · simp only [traceStateAt]
    congr 1
    apply List.map_congr_left
    intro k _
    rw [mkRecord_def, u32LE_mod, u32LE_mod]
  · intro bs hbs
    simp only [traceStateAt, List.mem_flatten, List.mem_map] at hbs
    obtain ⟨l, ⟨k, hk, hl⟩, hmem⟩ := hbs
    subst hl
    simp only [List.mem_cons, List.not_mem_nil, or_false] at hmem
    rcases hmem with h | h
    · injection h with h'
      subst h'
      exact mkRecord_length _ _
    · exact OutEvent.noConfusion h

/-- Witness for C3 at a concrete clock, value sequence and run length. -/
theorem trace_record_layout_witness :
    ∃ s, traceRun cexClock7 cexReadZero 1 = Except.ok s ∧
      s.stdout = ((List.range 1).map fun k =>
        [OutEvent.write (u32LE (cexClock7 (2 * k) % 2 ^ 32) ++ u32LE (0 % 2 ^ 32)),
         OutEvent.flush]).flatten ∧
      ∀ bs, OutEvent.write bs ∈ s.stdout → bs.length = 8 :=
  trace_record_layout cexClock7 (fun _ => 0) cexReadZero (fun _ => rfl) 1

/-- Claim C4 (counterexample): with the monotone clock `2^32 - 1 + n` the first
two emitted 32-bit timestamps are `4294967295` and then `1` — the truncation to
32 bits wraps, so the emitted sequence is not non-decreasing even though the
underlying clock never decreases. -/
theorem trace_timestamps_wrap :
    (∀ a b : Nat, a ≤ b → cexClockBig a ≤ cexClockBig b) ∧
    timestampsOf (traceRun cexClockBig cexReadZero 2) = [4294967295, 1] ∧
    ¬ List.Pairwise (fun a b : Nat => a ≤ b)
      (timestampsOf (traceRun cexClockBig cexReadZero 2)) := by
  refine ⟨fun a b h => Nat.add_le_add_left h 4294967295, by decide, by decide⟩

/-- Claim C4 (amended): the emitted 32-bit timestamp sequence is non-decreasing
for every run whose monotone clock stays below `2^32` ms (no 32-bit
wraparound). -/
theorem trace_timestamps_monotone (clock val : Nat → Nat)
    (readWord : Nat → Except MemErr Nat)
    (hread : ∀ k, readWord k = Except.ok (val k))
    (hmono : ∀ a b : Nat, a ≤ b → clock a ≤ clock b)
    (hbound : ∀ n, clock n < 2 ^ 32) (N : Nat) :
    List.Pairwise (fun a b : Nat => a ≤ b)
      (timestampsOf (traceRun clock readWord N)) := by
  rw [traceRun_eq clock val readWord hread N]
  show List.Pairwise _ (emittedTimestamps (traceStateAt clock val N))
  rw [emitted_traceStateAt]
  have hmod : ∀ k : Nat, clock (2 * k) % 2 ^ 32 = clock (2 * k) :=
    fun k => Nat.mod_eq_of_lt (hbound _)
  simp only [hmod]
  rw [List.pairwise_map]
  exact (List.pairwise_lt_range N).imp fun h => hmono _ _ (by omega)

/-- Witness for the amended C4 at a concrete bounded monotone clock. -/
theorem trace_timestamps_monotone_witness :
    List.Pairwise (fun a b : Nat => a ≤ b)
      (timestampsOf (traceRun cexClock0 cexReadZero 2)) :=
  trace_timestamps_monotone cexClock0 (fun _ => 0) cexReadZero (fun _ => rfl)
    (fun _ _ _ => Nat.le_refl 0) (fun _ => by norm_num [cexClock0]) 2

/-- Claim C5: for valid `(loc, words)` the dump reads exactly `words` contiguous
32-bit values starting at `loc` and prints one row per word in increasing
address order, the w-th row reporting address `loc + 4 * w` and the w-th value
read; `words = 0` reads nothing and prints no rows. -/
theorem dump_memory_correct (mem : Nat → Nat) (loc words : Nat)
    (hvalid : loc + 4 * words ≤ 2 ^ 32) :
    read_32 mem loc words = ((List.range words).map fun i => mem (loc + 4 * i)) ∧
    (read_32 mem loc words).length = words ∧
    (dump_memory mem loc words).length = words ∧
    (∀ w, w < words →
      (dump_memory mem loc words).getD w (0, 0) = (loc + 4 * w, mem (loc + 4 * w))) ∧
    (words = 0 → dump_memory mem loc words = [] ∧ read_32 mem loc 0 = []) := by
  have haddr : ∀ i, i < words → (loc + 4 * i) % 2 ^ 32 = loc + 4 * i := by
    intro i hi
    apply Nat.mod_eq_of_lt
    have h32 : (2 : Nat) ^ 32 = 4294967296 := by norm_num
    rw [h32] at hvalid ⊢
    omega
  have hdump : dump_memory mem loc words =
      (List.range words).map fun w => (loc + 4 * w, mem (loc + 4 * w)) := by
    simp only [dump_memory]
    apply List.map_congr_left
    intro w hw
    have hw' := List.mem_range.mp hw
    rw [haddr w hw']
    congr 1
    rw [List.getD_eq_getElem _ _ (by simpa [read_32] using hw')]
    simp only [read_32, List.getElem_map, List.getElem_range]
    rw [haddr w hw']
  refine ⟨?_, by simp [read_32], ?_, ?_, ?_⟩
  · apply List.map_congr_left
    intro i hi
    rw [haddr i (List.mem_range.mp hi)]
  · rw [hdump]
    simp
  · intro w hw
    rw [hdump, List.getD_eq_getElem _ _ (by simpa using hw)]
    simp
  · intro h0
    subst h0
    exact ⟨by rw [hdump]; rfl, rfl⟩

/-- Witness for C5 at a concrete memory image, address and word count. -/
theorem dump_memory_correct_witness :
    (dump_memory wmem 0 2).length = 2 :=
  (dump_memory_correct wmem 0 2 (by norm_num)).2.2.1

/-- Claim C6: resolving `bin` with no base-address and no skip-bytes yields
`Bin { base_address := none, skip := 0 }`; `elf` and `hex` resolve to `Elf`
and `Hex` regardless of the supplied base-address and skip-bytes, and never
error. -/
theorem download_format_resolution :
    DownloadFileType.into DownloadFileType.Bin none none =
      Format.Bin { base_address := none, skip := 0 } ∧
    (∀ b s, DownloadFileType.into DownloadFileType.Elf b s = Format.Elf) ∧
    (∀ b s, DownloadFileType.into DownloadFileType.Hex b s = Format.Hex) :=
  ⟨rfl, fun _ _ => rfl, fun _ _ => rfl⟩

/-- Claim C7: the shell loop exits with success when the handler returns `Stop`
after a run of `Continue` lines, on end-of-input, on interrupt, and on any
other line-editing error — in the last case printing the error instead of
propagating it. -/
theorem debug_loop_clean_exit {E : Type} (handle_line : String → Except E CliState)
    (pre : List String) (rest : List ReadEvent) (s m : String)
    (hpre : ∀ x ∈ pre, handle_line x = Except.ok CliState.Continue)
    (hstop : handle_line s = Except.ok CliState.Stop) :
    debugLoop handle_line (pre.map ReadEvent.line ++ ReadEvent.line s :: rest) =
      (LoopOutcome.finished (Except.ok ()), []) ∧
    debugLoop handle_line
        (pre.map ReadEvent.line ++ ReadEvent.err ReadlineError.Eof :: rest) =
      (LoopOutcome.finished (Except.ok ()), []) ∧
    debugLoop handle_line
        (pre.map ReadEvent.line ++ ReadEvent.err ReadlineError.Interrupted :: rest) =
      (LoopOutcome.finished (Except.ok ()), []) ∧
    debugLoop handle_line
        (pre.map ReadEvent.line ++ ReadEvent.err (ReadlineError.Other m) :: rest) =
      (LoopOutcome.finished (Except.ok ()), [ "Error handling input: " ++ m]) := by
  refine ⟨?_, ?_, ?_, ?_⟩ <;> rw [debugLoop_continue_skip handle_line pre _ hpre]
  · simp [debugLoop, hstop]
  · rfl
  · rfl
  · rfl

/-- Witness for C7: a concrete handler stopping on `quit` after one
`Continue` line. -/
theorem debug_loop_clean_exit_witness :
    debugLoop whandle ([ "step"].map ReadEvent.line ++ ReadEvent.line "quit" :: []) =
      (LoopOutcome.finished (Except.ok ()), []) :=
  (debug_loop_clean_exit whandle [ "step"] [] "quit" "boom" (by simp [whandle])
    (by simp [whandle])).1

/-- Claim C8: `run_flash_download` is invoked only after the loader was fully
populated (the performed-operation trace places `loadImage` before `flash`),
an unopenable file returns the wrapped open error having performed no flash,
and a failing loader entry returns the load error having performed no flash. -/
theorem download_load_precedes_flash (ops : DlOps) (format : Format) (e : String)
    (hattach : ops.attach = Except.ok ()) :
    (DlEvent.flash ∈ (download_program_fast ops format).2 →
      loadOf ops format = Except.ok () ∧
      (download_program_fast ops format).2 =
        [DlEvent.attach, DlEvent.openFile, DlEvent.loadImage, DlEvent.flash]) ∧
    (ops.openFile = Except.error e →
      download_program_fast ops format =
        (Except.error ( "Failed to open binary file. " ++ e), [DlEvent.attach])) ∧
    (ops.openFile = Except.ok () → loadOf ops format = Except.error e →
      download_program_fast ops format =
        (Except.error e, [DlEvent.attach, DlEvent.openFile])) := by
  refine ⟨?_, ?_, ?_⟩
  · intro hmem
    rcases hopen : ops.openFile with eo | uo
    · simp [download_program_fast, hattach, hopen] at hmem
    · rcases hload : loadOf ops format with el | ul
      · simp [download_program_fast, hattach, hopen, hload] at hmem
      · cases ul
        refine ⟨rfl, ?_⟩
        rcases hflash : ops.run_flash_download with ef | uf <;>
          simp [download_program_fast, hattach, hopen, hload, hflash]
  · intro hopen
    simp [download_program_fast, hattach, hopen]
  · intro hopen hload
    simp [download_program_fast, hattach, hopen, hload]

/-- Witness for C8: concrete operations whose ELF load fails produce the load
error with no flash performed. -/
theorem download_load_precedes_flash_witness :
    download_program_fast wops Format.Elf =
      (Except.error "bad elf", [DlEvent.attach, DlEvent.openFile]) :=
  (download_load_precedes_flash wops Format.Elf "bad elf" rfl).2.2 rfl rfl

/-- Claim C9: an error returned by the line handler for a successfully read
line is propagated immediately as the result of `debug` (via the `?`
operator), unlike line-editing errors, which are absorbed. -/
theorem debug_handler_error_propagates {E : Type}
    (handle_line : String → Except E CliState)
    (pre : List String) (rest : List ReadEvent) (s : String) (e : E)
    (hpre : ∀ x ∈ pre, handle_line x = Except.ok CliState.Continue)
    (herr : handle_line s = Except.error e) :
    debugLoop handle_line (pre.map ReadEvent.line ++ ReadEvent.line s :: rest) =
      (LoopOutcome.finished (Except.error e), []) := by
  rw [debugLoop_continue_skip handle_line pre _ hpre]
  simp [debugLoop, herr]

/-- Witness for C9 with a concrete always-failing handler. -/
theorem debug_handler_error_propagates_witness :
    debugLoop werrHandle [ReadEvent.line "x"] =
      (LoopOutcome.finished (Except.error 42), []) :=
  debug_handler_error_propagates werrHandle [] [] "x" 42 (by simp) rfl

/-- Claim C10: a failing debug-info load is converted to `none` by
`.ok()`/`and_then`, so the shell starts with no debug info and `debug` cannot
fail because of an unreadable or malformed exe file. -/
theorem debug_exe_failure_discarded {E D : Type} (from_file : String → Except E D)
    (p : String) (e : E) (h : from_file p = Except.error e) :
    debug_di from_file (some p) = none := by
  simp [debug_di, h, Except.toOption]

/-- Witness for C10 with a concrete always-failing loader. -/
theorem debug_exe_failure_discarded_witness :
    debug_di wfromFile (some "a.out") = none :=
  debug_exe_failure_discarded wfromFile "a.out" "nope" rfl

end Cli
